import Mathlib

/-!
Shallow embedding of `src/client.rs` of mumble-rs: the control-channel
client (framed message sender, handshake retry loop, version / authenticate /
ping messages, session construction, reconnect, and the keep-alive worker),
together with theorems settling the specification claims about it.
-/

namespace Mumble

/-! ## Constants (src/client.rs lines 16-27) -/

/-- `const SSL_HANDSHAKE_RETRIES: u8 = 3;` -/
def SSL_HANDSHAKE_RETRIES : ℕ := 3

/-- `const VERSION_RELEASE_PREFIX: &str = "mumble-rs";` (renamed for Lean). -/
def VERSION_RELEASE_NAME : String := "mumble-rs"

/-- `const VERSION_MAJOR: u16 = 1;` -/
def VERSION_MAJOR : ℕ := 1

/-- `const VERSION_MINOR: u8 = 3;` -/
def VERSION_MINOR : ℕ := 3

/-- `const VERSION_PATCH: u8 = 0;` -/
def VERSION_PATCH : ℕ := 0

/-- `u32::max_value()` -/
def U32_MAX : ℕ := 2 ^ 32 - 1

/-! ## Error types (src/client.rs lines 29-58); openssl error values and io
error values are opaque in the source, modelled as numeric codes. -/

/-- `enum ConnectionError` -/
inductive ConnectionError
  | exceededHandshakeRetries (msg : String)
  | ssl (code : ℕ)
  | tcpStream (code : ℕ)
  deriving DecidableEq, Repr

/-- `enum SendError` -/
inductive SendError
  | messageTooLarge (msg : String)
  | ssl (code : ℕ)
  deriving DecidableEq, Repr

/-- `enum Error` -/
inductive Error
  | connectionError (e : ConnectionError)
  | sendError (e : SendError)
  deriving DecidableEq, Repr

/-! ## Framing (`send_message`, src/client.rs lines 163-184)

Bytes are naturals < 256; `byteorder`'s big-endian writers for u16 / u32 are
embedded explicitly. The encrypted stream is modelled by the function `write`
(`ssl_write`): it receives the bytes of one write call and returns either an
openssl error code or the number of bytes it reports written, exactly the
shape of `SslStream::ssl_write`. The second component of the result collects
the byte strings of the `ssl_write` calls that were issued. -/

/-- `packet.write_u16::<BigEndian>(id)`: the two big-endian bytes of a u16. -/
def u16be (n : ℕ) : List ℕ := [n / 2 ^ 8 % 2 ^ 8, n % 2 ^ 8]

/-- `packet.write_u32::<BigEndian>(len)`: the four big-endian bytes of a u32. -/
def u32be (n : ℕ) : List ℕ :=
  [n / 2 ^ 24 % 2 ^ 8, n / 2 ^ 16 % 2 ^ 8, n / 2 ^ 8 % 2 ^ 8, n % 2 ^ 8]

/-- Result of one `send_message` call. `aborted` models the `panic!()` the
source executes when the serialized payload exceeds `u32::max_value()`
(src/client.rs line 171): the function never returns, so no `SendError`
is produced on that path. -/
inductive SendOutcome
  | ok
  | err (e : SendError)
  | aborted
  deriving DecidableEq, Repr

/-- `fn send_message(&self, id: u16, message: M)` with the serialized message
bytes `payload` (`message.write_to_bytes()`) passed in directly. Mirrors the
source: build the packet `[id:u16 BE][len:u32 BE][payload]`; if
`payload.len() > u32::max_value()` execute `panic!()` before any transport
write; otherwise issue exactly one `ssl_write` with the whole packet,
mapping a write error to `SendError::Ssl` and discarding the written-byte
count on success (`Ok(_) => Ok(())`). -/
def send_message (id : ℕ) (payload : List ℕ) (write : List ℕ → Except ℕ ℕ) :
    SendOutcome × List (List ℕ) :=
  if payload.length > U32_MAX then
    (SendOutcome.aborted, [])
  else
    let packet := u16be id ++ u32be payload.length ++ payload
    match write packet with
    | Except.error e => (SendOutcome.err (SendError.ssl e), [packet])
    | Except.ok _ => (SendOutcome.ok, [packet])

/-! ## ping (src/client.rs lines 156-160) -/

/-- Modelled from the spec: the generated protobuf module `proto` is not under
src/. `proto::Ping::new()` is a Ping message with every field at its default,
and per the spec ("Ping payload fields: none populated by this core (message
sent with all fields at default)", example frame `00 03 00 00 00 00`) such a
message serializes to zero bytes. -/
def pingSerialized : List ℕ := []

/-- `fn ping(&self)`: builds the empty Ping message and sends it as id 3. -/
def ping (write : List ℕ → Except ℕ ℕ) : SendOutcome × List (List ℕ) :=
  send_message 3 pingSerialized write

/-! ## version_exchange (src/client.rs lines 133-144) -/

/-- The fields of `proto::Version` that `version_exchange` sets. -/
structure Version where
  version : ℕ
  release : String
  os : String
  os_version : String
  deriving DecidableEq, Repr

/-- `fn version_exchange(&self)`: builds the Version message and sends it as
message id 0. `cargoPkgVersion` is `option_env!("CARGO_PKG_VERSION")`
(the build-time package version, which may be absent). The result is the
message id and the message handed to `send_message`. -/
def version_exchange (cargoPkgVersion : Option String) : ℕ × Version :=
  let major := VERSION_MAJOR <<< 16
  let minor := VERSION_MINOR <<< 8
  let patch := VERSION_PATCH
  (0, { version := major ||| minor ||| patch
      , release := VERSION_RELEASE_NAME ++ " " ++ cargoPkgVersion.getD "Unknown"
      , os := "DenialAdams OS"
      , os_version := "1.3.3.7" })

/-! ## connect (src/client.rs lines 93-131)

`SslStream::connect` and the subsequent `handshake()` calls on the
interrupted mid-handshake stream are modelled by a stub `hs : ℕ → HsRes`
giving the outcome of the n-th handshake attempt (attempt indices from 0).
The `while tries < SSL_HANDSHAKE_RETRIES` loop, whose counter starts at 1
and increments once per interrupted retry, is embedded with the countdown
`remaining = SSL_HANDSHAKE_RETRIES - tries`, so the loop body runs exactly
while `remaining > 0`; `attempted` counts handshake attempts issued so far. -/

/-- Outcome of one TLS handshake attempt: success, a hard failure
(`HandshakeError::Failure`), or `HandshakeError::Interrupted`. -/
inductive HsRes
  | ok
  | failure (code : ℕ)
  | interrupted
  deriving DecidableEq, Repr

/-- Result of `connect` paired with the number of handshake attempts issued.
`success` stands for `Ok(SslStream)`. -/
inductive ConnectOutcome
  | success
  | err (e : ConnectionError)
  deriving DecidableEq, Repr

/-- The retry loop of `connect` (src/client.rs lines 113-127):
`remaining = SSL_HANDSHAKE_RETRIES - tries`, and each interrupted attempt
increments `tries` (decrements `remaining`). Returns the outcome and the
total number of handshake attempts issued. -/
def hsRetryLoop (hs : ℕ → HsRes) : ℕ → ℕ → ConnectOutcome × ℕ
  | 0, attempted =>
      (ConnectOutcome.err (ConnectionError.exceededHandshakeRetries
        "Exceeded number of handshake retries"), attempted)
  | remaining + 1, attempted =>
      match hs attempted with
      | HsRes.ok => (ConnectOutcome.success, attempted + 1)
      | HsRes.failure c => (ConnectOutcome.err (ConnectionError.ssl c), attempted + 1)
      | HsRes.interrupted => hsRetryLoop hs remaining (attempted + 1)

/-- `fn connect(host, port)`: after the context build and TCP connect
(modelled by `ctx` and `tcp`, whose failures return early exactly as in the
source), the first `SslStream::connect` is attempt 0; a hard failure aborts,
an interruption enters the retry loop with `tries = 1`. -/
def connect (ctx : Except ℕ Unit) (tcp : Except ℕ Unit) (hs : ℕ → HsRes) :
    ConnectOutcome × ℕ :=
  match ctx with
  | Except.error c => (ConnectOutcome.err (ConnectionError.ssl c), 0)
  | Except.ok _ =>
    match tcp with
    | Except.error c => (ConnectOutcome.err (ConnectionError.tcpStream c), 0)
    | Except.ok _ =>
      match hs 0 with
      | HsRes.ok => (ConnectOutcome.success, 1)
      | HsRes.failure c => (ConnectOutcome.err (ConnectionError.ssl c), 1)
      | HsRes.interrupted => hsRetryLoop hs (SSL_HANDSHAKE_RETRIES - 1) 1

/-- A transport stub whose handshake is interrupted on the first `k`
attempts and succeeds from attempt `k` on. -/
def stubInterrupted (k : ℕ) : ℕ → HsRes :=
  fun a => if a < k then HsRes.interrupted else HsRes.ok

/-- A transport stub whose handshake is interrupted on the first `i`
attempts and then hard-fails (with code `c`) from attempt `i` on. -/
def stubHardFail (i c : ℕ) : ℕ → HsRes :=
  fun a => if a < i then HsRes.interrupted else HsRes.failure c

/-! ## Session construction `new` (src/client.rs lines 67-83)

`new` is `try!(connect)` then `try!(version_exchange)` then
`try!(authenticate)` then `thread::spawn` of the keep-alive loop. The three
steps' outcomes are passed in as stubs and the embedding records the calls
it makes, in order, so the ordering and short-circuit behaviour is visible.
The channel created by `connect` is an abstract identity (a natural). -/

/-- One recorded call of the construction sequence. -/
inductive Ev
  | connectCall
  | versionCall
  | authCall
  | spawnCall
  deriving DecidableEq, Repr

/-- `fn new(host, port, username, password)`: the result (the channel of the
constructed client, or the first error) together with the ordered call
trace. `connectRes` is the outcome of `Client::connect`, `versionRes` of
`version_exchange` on the fresh client, `authRes` of `authenticate`. -/
def new (connectRes : Except ConnectionError ℕ)
    (versionRes : Except SendError Unit) (authRes : Except SendError Unit) :
    Except Error ℕ × List Ev :=
  match connectRes with
  | Except.error e => (Except.error (Error.connectionError e), [Ev.connectCall])
  | Except.ok chan =>
    match versionRes with
    | Except.error e =>
        (Except.error (Error.sendError e), [Ev.connectCall, Ev.versionCall])
    | Except.ok _ =>
      match authRes with
      | Except.error e =>
          (Except.error (Error.sendError e),
            [Ev.connectCall, Ev.versionCall, Ev.authCall])
      | Except.ok _ =>
          (Except.ok chan,
            [Ev.connectCall, Ev.versionCall, Ev.authCall, Ev.spawnCall])

/-! ## reconnect (src/client.rs lines 85-91) -/

/-- The mutable state of a `Client`: which connection (identified by a
natural) its `control_channel` field currently holds. -/
structure ClientSt where
  control_channel : ℕ
  deriving DecidableEq, Repr

/-- `fn reconnect(&mut self, ...)`: mirrors the source line by line —
`connect` first (on failure, return with `self` untouched); on success the
fresh channel is assigned to `self.control_channel` IMMEDIATELY (line 87),
and only then are `version_exchange` and `authenticate` run (on the new
channel); their failures return with the new channel still installed. -/
def reconnect (st : ClientSt) (connectRes : Except ConnectionError ℕ)
    (versionRes : Except SendError Unit) (authRes : Except SendError Unit) :
    Except Error Unit × ClientSt :=
  match connectRes with
  | Except.error e => (Except.error (Error.connectionError e), st)
  | Except.ok chan =>
    let st1 : ClientSt := { control_channel := chan }
    match versionRes with
    | Except.error e => (Except.error (Error.sendError e), st1)
    | Except.ok _ =>
      match authRes with
      | Except.error e => (Except.error (Error.sendError e), st1)
      | Except.ok _ => (Except.ok (), st1)

/-! ## Keep-alive worker (src/client.rs lines 72-81)

The spawned loop is `while let Some(client) = weak.upgrade() { sleep(5s);
let _ = client.ping(); }`. Its interleaving with the owner dropping its
strong reference is embedded by numbering the worker's atomic steps
0, 1, 2, ...: even steps are `upgrade()` attempts, and the step after a
successful upgrade is the wake from the sleep followed by the `ping` (the
temporary strong reference obtained by the upgrade is dropped at the end of
that same step, when the loop body ends). The owner's drop point is the
step index `d`: the owner still holds its reference during every worker
step `t < d`. An upgrade at step `t` succeeds iff the strong count is then
positive, i.e. iff the owner is still alive (`t < d`), because the worker
holds no strong reference of its own at the top of the loop. A ping at step
`t + 1` follows every successful upgrade at step `t` unconditionally: the
worker already holds its temporary strong reference, so the owner dropping
during the sleep (`d = t + 1`) does not stop that ping. -/

/-- One observable step of the keep-alive worker. -/
inductive WEv
  | resolveOk (t : ℕ)
  | resolveFail (t : ℕ)
  | pingAt (t : ℕ)
  deriving DecidableEq, Repr

/-- The worker's trace from step `t` on, when the owner drops at step `d`. -/
def workerLoop (d : ℕ) : ℕ → List WEv
  | t =>
    if t < d then
      WEv.resolveOk t :: WEv.pingAt (t + 1) :: workerLoop d (t + 2)
    else
      [WEv.resolveFail t]
  termination_by t => d - t
  decreasing_by omega

/-- The whole trace of the keep-alive worker when the owner drops at step
`d` (the spawn is step 0). -/
def workerTrace (d : ℕ) : List WEv :=
  workerLoop d 0

/-- Is this event a ping issued at or after the owner's drop point `d`? -/
def isLatePing (d : ℕ) : WEv → Bool
  | WEv.pingAt t => decide (d ≤ t)
  | _ => false

end Mumble

namespace Mumble

/-! ## Theorems: framing claims -/

/-- C4: for every message id below 2^16 and every payload of serialized
length at most 2^32 - 1, `send_message` issues exactly one transport write,
whose bytes are the 2-byte big-endian id, then the 4-byte big-endian payload
length, then exactly the payload, with nothing else — whatever the transport
write then reports. -/
theorem send_message_frame_layout (id : ℕ) (p : List ℕ) (write : List ℕ → Except ℕ ℕ)
    (hid : id < 2 ^ 16) (hp : p.length ≤ 2 ^ 32 - 1) :
    (send_message id p write).2 =
      [[id / 2 ^ 8, id % 2 ^ 8] ++
        [p.length / 2 ^ 24, p.length / 2 ^ 16 % 2 ^ 8,
          p.length / 2 ^ 8 % 2 ^ 8, p.length % 2 ^ 8] ++ p] := by
  have hlen : ¬ p.length > U32_MAX := by
    simp only [U32_MAX]
    omega
  have hd1 : id / 2 ^ 8 % 2 ^ 8 = id / 2 ^ 8 := by
    apply Nat.mod_eq_of_lt
    omega
  have hd2 : p.length / 2 ^ 24 % 2 ^ 8 = p.length / 2 ^ 24 := by
    apply Nat.mod_eq_of_lt
    omega
  simp only [send_message, if_neg hlen, u16be, u32be, hd1, hd2]
  cases write ([id / 2 ^ 8, id % 2 ^ 8] ++
      [p.length / 2 ^ 24, p.length / 2 ^ 16 % 2 ^ 8,
        p.length / 2 ^ 8 % 2 ^ 8, p.length % 2 ^ 8] ++ p) <;> rfl

/-- Witness for `send_message_frame_layout` at id 3, payload `[7]`. -/
theorem send_message_frame_layout_witness :
    (send_message 3 [7] (fun _ => Except.ok 9)).2 = [[0, 3, 0, 0, 0, 1, 7]] := by
  have h := send_message_frame_layout 3 [7] (fun _ => Except.ok 9)
    (by norm_num) (by norm_num)
  simpa using h

/-- C1: evaluating `send_message` at a payload of serialized length 2^32
(one byte past the 4-byte length field's range): the source executes
`panic!()` — an unconditional abort, modelled by `SendOutcome.aborted` —
rather than returning `SendError::MessageTooLarge`, and no transport write
is issued. -/
theorem send_message_oversized_aborts :
    send_message 0 (List.replicate (2 ^ 32) 0) (fun _ => Except.ok 0) =
      (SendOutcome.aborted, []) := by
  have h : (List.replicate (2 ^ 32) (0 : ℕ)).length > U32_MAX := by
    rw [List.length_replicate]
    norm_num [U32_MAX]
  unfold send_message
  rw [if_pos h]

/-- C9: whenever the single encrypted write reports success, `send_message`
returns `Ok(())`, whatever byte count the write reports — the count is
discarded, so a short write is indistinguishable from a complete one. -/
theorem send_message_discards_write_count (id : ℕ) (p : List ℕ) (n : ℕ)
    (hp : p.length ≤ 2 ^ 32 - 1) :
    (send_message id p (fun _ => Except.ok n)).1 = SendOutcome.ok ∧
    ∀ m, send_message id p (fun _ => Except.ok n) =
        send_message id p (fun _ => Except.ok m) := by
  have hlen : ¬ p.length > U32_MAX := by
    simp only [U32_MAX]
    omega
  constructor
  · simp [send_message, if_neg hlen]
  · intro m
    simp [send_message, if_neg hlen]

/-- Witness for `send_message_discards_write_count`: a write reporting 0
bytes written on a 7-byte frame still yields `Ok(())`. -/
theorem send_message_discards_write_count_witness :
    (send_message 3 [7] (fun _ => Except.ok 0)).1 = SendOutcome.ok ∧
    send_message 3 [7] (fun _ => Except.ok 0) =
      send_message 3 [7] (fun _ => Except.ok 7) :=
  ⟨(send_message_discards_write_count 3 [7] 0 (by norm_num)).1,
    (send_message_discards_write_count 3 [7] 0 (by norm_num)).2 7⟩

/-- C8: `ping` sends the empty Ping message as message id 3, so the single
frame handed to the transport is exactly the six bytes
`00 03 00 00 00 00`. -/
theorem ping_frame_bytes (write : List ℕ → Except ℕ ℕ) :
    (ping write).2 = [[0, 3, 0, 0, 0, 0]] := by
  have hpacket : u16be 3 ++ u32be (List.length ([] : List ℕ)) ++ ([] : List ℕ) =
      [0, 3, 0, 0, 0, 0] := by decide
  unfold ping pingSerialized send_message
  rw [if_neg (by norm_num [U32_MAX]), hpacket]
  cases h : write [0, 3, 0, 0, 0, 0] <;> simp [h]

/-! ## Theorems: version exchange -/

/-- C7: `version_exchange` sends message id 0, and the Version message's
version field is the packed value (major << 16) | (minor << 8) | patch with
major = 1, minor = 3, patch = 0, i.e. exactly 66304 = 0x00010300. -/
theorem version_exchange_packed_version (v : Option String) :
    (version_exchange v).1 = 0 ∧
    (version_exchange v).2.version =
      (VERSION_MAJOR <<< 16) ||| (VERSION_MINOR <<< 8) ||| VERSION_PATCH ∧
    (version_exchange v).2.version = 66304 := by
  refine ⟨rfl, rfl, ?_⟩
  show (VERSION_MAJOR <<< 16) ||| (VERSION_MINOR <<< 8) ||| VERSION_PATCH = 66304
  decide

/-- C10: the Version message's release string is exactly "mumble-rs "
followed by the build-time package version, "mumble-rs Unknown" when that
version is absent, and the os / os_version strings are the fixed constants
"DenialAdams OS" and "1.3.3.7". -/
theorem version_exchange_strings (v : Option String) :
    (version_exchange v).2.release = "mumble-rs " ++ v.getD "Unknown" ∧
    (version_exchange none).2.release = "mumble-rs Unknown" ∧
    (version_exchange v).2.os = "DenialAdams OS" ∧
    (version_exchange v).2.os_version = "1.3.3.7" :=
  ⟨rfl, rfl, rfl, rfl⟩

/-! ## Theorems: handshake retry (connect) -/

/-- C5: with a transport whose handshake is interrupted exactly `k` times
before succeeding, `connect` succeeds iff `k < 3` and issues exactly
`min (k+1) 3` handshake attempts; with a transport that is always
interrupted it fails with the retries-exceeded error after exactly 3
attempts; a hard handshake failure (after `i < 3` interruptions) aborts at
that attempt and is never retried. -/
theorem connect_handshake_retry (k i c : ℕ) (hi : i < 3) :
    ((connect (Except.ok ()) (Except.ok ()) (stubInterrupted k)).1 =
        ConnectOutcome.success ↔ k < 3) ∧
    (connect (Except.ok ()) (Except.ok ()) (stubInterrupted k)).2 = min (k + 1) 3 ∧
    connect (Except.ok ()) (Except.ok ()) (fun _ => HsRes.interrupted) =
      (ConnectOutcome.err (ConnectionError.exceededHandshakeRetries
        "Exceeded number of handshake retries"), 3) ∧
    connect (Except.ok ()) (Except.ok ()) (stubHardFail i c) =
      (ConnectOutcome.err (ConnectionError.ssl c), i + 1) := by
  have halways : connect (Except.ok ()) (Except.ok ()) (fun _ => HsRes.interrupted) =
      (ConnectOutcome.err (ConnectionError.exceededHandshakeRetries
        "Exceeded number of handshake retries"), 3) := by
    simp [connect, hsRetryLoop, SSL_HANDSHAKE_RETRIES]
  have hstub : ∀ m a : ℕ, a < m → stubInterrupted m a = HsRes.interrupted := by
    intro m a ha
    unfold stubInterrupted
    rw [if_pos ha]
  have hstub2 : ∀ m a : ℕ, ¬ a < m → stubInterrupted m a = HsRes.ok := by
    intro m a ha
    unfold stubInterrupted
    rw [if_neg ha]
  refine ⟨?_, ?_, halways, ?_⟩
  · match k with
    | 0 => simp [connect, hstub2 0 0 (by omega), SSL_HANDSHAKE_RETRIES]
    | 1 =>
      simp [connect, hstub 1 0 (by omega), hstub2 1 1 (by omega),
        SSL_HANDSHAKE_RETRIES, hsRetryLoop]
    | 2 =>
      simp [connect, hstub 2 0 (by omega), hstub 2 1 (by omega),
        hstub2 2 2 (by omega), SSL_HANDSHAKE_RETRIES, hsRetryLoop]
    | n + 3 =>
      simp [connect, hstub (n + 3) 0 (by omega), hstub (n + 3) 1 (by omega),
        hstub (n + 3) 2 (by omega), SSL_HANDSHAKE_RETRIES, hsRetryLoop]
  · match k with
    | 0 => simp [connect, hstub2 0 0 (by omega), SSL_HANDSHAKE_RETRIES]
    | 1 =>
      simp [connect, hstub 1 0 (by omega), hstub2 1 1 (by omega),
        SSL_HANDSHAKE_RETRIES, hsRetryLoop]
    | 2 =>
      simp [connect, hstub 2 0 (by omega), hstub 2 1 (by omega),
        hstub2 2 2 (by omega), SSL_HANDSHAKE_RETRIES, hsRetryLoop]
    | n + 3 =>
      simp [connect, hstub (n + 3) 0 (by omega), hstub (n + 3) 1 (by omega),
        hstub (n + 3) 2 (by omega), SSL_HANDSHAKE_RETRIES, hsRetryLoop]
  · have hhard : ∀ m a : ℕ, a < m → stubHardFail m c a = HsRes.interrupted := by
      intro m a ha
      unfold stubHardFail
      rw [if_pos ha]
    have hhard2 : ∀ m a : ℕ, ¬ a < m → stubHardFail m c a = HsRes.failure c := by
      intro m a ha
      unfold stubHardFail
      rw [if_neg ha]
    interval_cases i
    · simp [connect, hhard2 0 0 (by omega), SSL_HANDSHAKE_RETRIES]
    · simp [connect, hhard 1 0 (by omega), hhard2 1 1 (by omega),
        SSL_HANDSHAKE_RETRIES, hsRetryLoop]
    · simp [connect, hhard 2 0 (by omega), hhard 2 1 (by omega),
        hhard2 2 2 (by omega), SSL_HANDSHAKE_RETRIES, hsRetryLoop]

/-- Witness for `connect_handshake_retry`: two interruptions then success
gives a successful connect in 3 attempts; one interruption then a hard
failure aborts with the ssl error at attempt 2. -/
theorem connect_handshake_retry_witness :
    (connect (Except.ok ()) (Except.ok ()) (stubInterrupted 2)).1 =
      ConnectOutcome.success ∧
    connect (Except.ok ()) (Except.ok ()) (stubHardFail 1 5) =
      (ConnectOutcome.err (ConnectionError.ssl 5), 2) :=
  ⟨((connect_handshake_retry 2 1 5 (by norm_num)).1).mpr (by norm_num),
    (connect_handshake_retry 2 1 5 (by norm_num)).2.2.2⟩

/-! ## Theorems: session construction ordering -/

/-- C6: `new` runs connect, then version_exchange, then authenticate, in
that order, short-circuiting on the first failure (in particular a
version_exchange failure means authenticate is never called), and the
keep-alive spawn happens only after both version_exchange and authenticate
succeeded; the first error is returned to the caller. -/
theorem new_startup_sequence :
    (∀ (e : ConnectionError) (vr ar : Except SendError Unit),
      new (Except.error e) vr ar =
        (Except.error (Error.connectionError e), [Ev.connectCall])) ∧
    (∀ (ch : ℕ) (e : SendError) (ar : Except SendError Unit),
      new (Except.ok ch) (Except.error e) ar =
        (Except.error (Error.sendError e), [Ev.connectCall, Ev.versionCall])) ∧
    (∀ (ch : ℕ) (e : SendError),
      new (Except.ok ch) (Except.ok ()) (Except.error e) =
        (Except.error (Error.sendError e),
          [Ev.connectCall, Ev.versionCall, Ev.authCall])) ∧
    (∀ ch : ℕ,
      new (Except.ok ch) (Except.ok ()) (Except.ok ()) =
        (Except.ok ch,
          [Ev.connectCall, Ev.versionCall, Ev.authCall, Ev.spawnCall])) :=
  ⟨fun _ _ _ => rfl, fun _ _ _ => rfl, fun _ _ => rfl, fun _ => rfl⟩

/-! ## Theorems: reconnect swap timing -/

/-- C2 counterexample: a reconnect from a session whose active connection
is channel 0, where the fresh connect yields channel 1 and version_exchange
then fails, returns an error yet leaves channel 1 — not the previously
active channel 0 — installed: the swap happened before the sequence
completed. -/
theorem reconnect_not_atomic_cex :
    (reconnect ⟨0⟩ (Except.ok 1) (Except.error (SendError.ssl 0))
        (Except.ok ())).1 =
      Except.error (Error.sendError (SendError.ssl 0)) ∧
    (reconnect ⟨0⟩ (Except.ok 1) (Except.error (SendError.ssl 0))
        (Except.ok ())).2.control_channel = 1 :=
  ⟨rfl, rfl⟩

/-- C2 amended: if `reconnect` fails at connect the session's previous
connection is untouched, but as soon as connect succeeds the new connection
immediately replaces the old one — before version_exchange and authenticate
run — so a failure at either of those steps leaves the new connection, not
the prior one, installed. -/
theorem reconnect_swap_timing :
    (∀ (st : ClientSt) (e : ConnectionError) (vr ar : Except SendError Unit),
      reconnect st (Except.error e) vr ar =
        (Except.error (Error.connectionError e), st)) ∧
    (∀ (st : ClientSt) (ch : ℕ) (vr ar : Except SendError Unit),
      (reconnect st (Except.ok ch) vr ar).2.control_channel = ch) := by
  constructor
  · intro st e vr ar
    rfl
  · intro st ch vr ar
    cases vr with
    | error e => rfl
    | ok u =>
      cases ar with
      | error e => rfl
      | ok u => rfl

/-! ## Theorems: keep-alive worker -/

/-- Every ping in the worker trace happens at a step no later than the
owner's drop step `d` (a ping at step `s` needs the resolve at `s - 1` to
have succeeded, which needs `s - 1 < d`). -/
theorem workerLoop_ping_le (d t s : ℕ) (h : WEv.pingAt s ∈ workerLoop d t) :
    s ≤ d := by
  by_cases ht : t < d
  · rw [workerLoop, if_pos ht] at h
    rcases List.mem_cons.mp h with h1 | h2
    · exact absurd h1 (by simp)
    rcases List.mem_cons.mp h2 with h3 | h4
    · cases h3
      omega
    · exact workerLoop_ping_le d (t + 2) s h4
  · rw [workerLoop, if_neg ht] at h
    simp at h
termination_by d - t
decreasing_by omega

/-- Every ping in the worker trace from step `t` on happens strictly after
step `t`. -/
theorem workerLoop_ping_gt (d t s : ℕ) (h : WEv.pingAt s ∈ workerLoop d t) :
    t < s := by
  by_cases ht : t < d
  · rw [workerLoop, if_pos ht] at h
    rcases List.mem_cons.mp h with h1 | h2
    · exact absurd h1 (by simp)
    rcases List.mem_cons.mp h2 with h3 | h4
    · cases h3
      omega
    · have := workerLoop_ping_gt d (t + 2) s h4
      omega
  · rw [workerLoop, if_neg ht] at h
    simp at h
termination_by d - t
decreasing_by omega

/-- Every ping at step `s` in the worker trace is preceded by a successful
resolution of the weak reference at step `s - 1`: the resolve is the first
action of each iteration. -/
theorem workerLoop_resolve_first (d t s : ℕ)
    (h : WEv.pingAt s ∈ workerLoop d t) :
    WEv.resolveOk (s - 1) ∈ workerLoop d t := by
  by_cases ht : t < d
  · rw [workerLoop, if_pos ht] at h ⊢
    rcases List.mem_cons.mp h with h1 | h2
    · exact absurd h1 (by simp)
    rcases List.mem_cons.mp h2 with h3 | h4
    · cases h3
      simp
    · exact List.mem_cons_of_mem _ (List.mem_cons_of_mem _
        (workerLoop_resolve_first d (t + 2) s h4))
  · rw [workerLoop, if_neg ht] at h
    simp at h
termination_by d - t
decreasing_by omega

/-- At most one ping in the worker trace happens at or after the owner's
drop step. -/
theorem workerLoop_late_pings (d t : ℕ) :
    ((workerLoop d t).filter (isLatePing d)).length ≤ 1 := by
  by_cases ht : t < d
  · rw [workerLoop, if_pos ht]
    by_cases hd : d ≤ t + 1
    · have htail : (workerLoop d (t + 2)).filter (isLatePing d) = [] := by
        rw [List.filter_eq_nil_iff]
        intro e he
        cases e with
        | resolveOk u => simp [isLatePing]
        | resolveFail u => simp [isLatePing]
        | pingAt u =>
          have h1 := workerLoop_ping_le d (t + 2) u he
          have h2 := workerLoop_ping_gt d (t + 2) u he
          omega
      simp [List.filter_cons, isLatePing, htail, hd]
    · have hlate : isLatePing d (WEv.pingAt (t + 1)) = false := by
        simp [isLatePing]
        omega
      have IH := workerLoop_late_pings d (t + 2)
      simp only [List.filter_cons, hlate]
      simpa [isLatePing] using IH
  · rw [workerLoop, if_neg ht]
    simp [isLatePing]
termination_by d - t
decreasing_by omega

/-- The worker trace from step `t` on ends with a failed resolution at a
step at or after the owner's drop step: the worker terminates at the first
upgrade attempt that finds the session gone. -/
theorem workerLoop_ends_fail (d t : ℕ) :
    ∃ l s, d ≤ s ∧ workerLoop d t = l ++ [WEv.resolveFail s] := by
  by_cases ht : t < d
  · obtain ⟨l, s, hs, hl⟩ := workerLoop_ends_fail d (t + 2)
    refine ⟨WEv.resolveOk t :: WEv.pingAt (t + 1) :: l, s, hs, ?_⟩
    rw [workerLoop, if_pos ht, hl]
    simp
  · exact ⟨[], t, by omega, by rw [workerLoop, if_neg ht]; simp⟩
termination_by d - t
decreasing_by omega

/-- C3 counterexample: when the owning handle is released at step 1 — i.e.
during the worker's five-second sleep, after the upgrade at step 0
succeeded — the worker's next wake still issues the ping at step 1 (an
event the filter for pings at-or-after the drop catches), and only the
following resolution attempt fails. The next scheduled wake after the
release does NOT terminate without issuing a ping. -/
theorem keepalive_ping_after_drop_cex :
    workerTrace 1 = [WEv.resolveOk 0, WEv.pingAt 1, WEv.resolveFail 2] ∧
    (workerTrace 1).filter (isLatePing 1) = [WEv.pingAt 1] := by
  constructor <;> simp [workerTrace, workerLoop, isLatePing]

/-- C3 amended: the worker attempts to resolve the weak reference as the
first action of each iteration, and a ping only ever follows a successful
resolution (at the immediately preceding step, which precedes the owner's
drop); the worker terminates at the first resolution attempt after the drop
(the trace ends with a failed resolve at a step at-or-after `d`); but
because the worker holds a temporary strong reference across the sleep, a
release during the sleep still yields one ping at the next wake: at most
one ping occurs at-or-after the drop, not necessarily zero. -/
theorem keepalive_worker_behaviour (d : ℕ) :
    (∀ s, WEv.pingAt s ∈ workerTrace d →
      WEv.resolveOk (s - 1) ∈ workerTrace d ∧ s ≤ d) ∧
    ((workerTrace d).filter (isLatePing d)).length ≤ 1 ∧
    (∃ l s, d ≤ s ∧ workerTrace d = l ++ [WEv.resolveFail s]) :=
  ⟨fun s h => ⟨workerLoop_resolve_first d 0 s h, workerLoop_ping_le d 0 s h⟩,
    workerLoop_late_pings d 0, workerLoop_ends_fail d 0⟩

/-- Witness for `keepalive_worker_behaviour` at drop step 1: the ping at
step 1 is preceded by the successful resolve at step 0 and happens no later
than the drop. -/
theorem keepalive_worker_behaviour_witness :
    WEv.resolveOk 0 ∈ workerTrace 1 ∧ (1 : ℕ) ≤ 1 := by
  have h := (keepalive_worker_behaviour 1).1 1
    (by simp [workerTrace, workerLoop])
  exact ⟨by simpa using h.1, h.2⟩

end Mumble
